import Mathlib

/-!
Shallow embedding of the efficacy effect core: the Result algebra
(src/unnamed/part_002), the Task class (src/unnamed/part_007, final draft),
the Stream class (src/src/stream.ts) and the retrying fetch consumer
(src/unnamed/part_005).  A Task run is a function of the capability object
and the optional abort signal; its Except layer models a rejected promise
(a thrown JS Error), distinct from the typed failure channel.  A Stream run
is the full emission sequence of one invocation together with an optional
terminal thrown error (an async generator either finishes normally or
raises after emitting a prefix).
-/

namespace Efficacy

/-- Result algebra from part_002: Success is tagged ok:true with a value,
Failure is tagged ok:false with an error. -/
inductive Result (T E : Type) where
  | ok (value : T)
  | fail (error : E)
deriving DecidableEq, Repr

/-- isFailure from part_002: true exactly on the Failure branch. -/
def Result.isFailure {T E : Type} : Result T E → Bool
  | .ok _ => false
  | .fail _ => true

/-- A thrown JS Error (carried by a rejected promise), identified by its
message.  This is the programming-error channel, distinct from the typed
error E. -/
structure JsError where
  message : String
deriving DecidableEq, Repr

/-- The host AbortSignal: an aborted flag plus an abort reason. -/
structure AbortSignal where
  aborted : Bool
  reason : String
deriving DecidableEq, Repr

/-- ProgressState from stream.ts: optional total and current fields. -/
structure ProgressState where
  total : Option Nat
  current : Option Nat
deriving DecidableEq, Repr

/-- A Progress emission from stream.ts: a Success or Failure extended with
an optional progress field.  The constructors mirror the ok(value, progress?)
and fail(error, progress?) helpers of stream.ts. -/
inductive Progress (T E : Type) where
  | ok (value : T) (progress : Option ProgressState)
  | fail (error : E) (progress : Option ProgressState)
deriving DecidableEq, Repr

/-- The outcome of one full consumption of a Stream run: the emissions in
order, and an optional error thrown by the generator after the last
emission (none when the generator finished normally). -/
structure StreamOut (T E : Type) where
  emitted : List (Progress T E)
  thrown : Option JsError
deriving DecidableEq, Repr

/-- Task from part_007 (lines 718-1146): its single field is the run
function (io, signal?) => Promise of a Result.  Except.error models a
rejected promise. -/
structure Task (T E Io : Type) where
  run : Io → Option AbortSignal → Except JsError (Result T E)

/-- Stream from stream.ts: its single field is the run function
(io, signal?) => async generator of Progress emissions, modelled by the
full per-run outcome. -/
structure Stream (T E Io : Type) where
  run : Io → Option AbortSignal → StreamOut T E

/-- Task.create: wraps an arbitrary initializer. -/
def Task.create {T E Io : Type} (init : Io → Option AbortSignal → Except JsError (Result T E)) :
    Task T E Io :=
  ⟨init⟩

/-- Task.of: async () => ok(value). -/
def Task.of {T E Io : Type} (value : T) : Task T E Io :=
  ⟨fun _ _ => .ok (.ok value)⟩

/-- Task.reject: async () => fail(error). -/
def Task.reject {T E Io : Type} (error : E) : Task T E Io :=
  ⟨fun _ _ => .ok (.fail error)⟩

/-- Task.map: awaits prev(io, signal), then returns the failure itself or
ok(fn(result.value)).  An awaited rejection propagates. -/
def Task.map {T U E Io : Type} (m : Task T E Io) (fn : T → U) : Task U E Io :=
  Task.create fun io signal =>
    match m.run io signal with
    | .error err => .error err
    | .ok (.fail e) => .ok (.fail e)
    | .ok (.ok v) => .ok (.ok (fn v))

/-- Task.flatMap: awaits prev(io, signal); on failure returns that failure,
on success runs fn(result.value) with the same io and signal.  The TS error
union E | F is instantiated at one Lean type, since at runtime the failure
value flows through untagged. -/
def Task.flatMap {T U E Io : Type} (m : Task T E Io) (fn : T → Task U E Io) : Task U E Io :=
  Task.create fun io signal =>
    match m.run io signal with
    | .error err => .error err
    | .ok (.fail e) => .ok (.fail e)
    | .ok (.ok v) => (fn v).run io signal

/-- Task.toStream (part_007 lines 1135-1146): awaits the task, then yields
its Result as one emission tagged current:1, total:1.  A rejected task
promise makes the generator throw before emitting. -/
def Task.toStream {T E Io : Type} (m : Task T E Io) : Stream T E Io :=
  ⟨fun io signal =>
    match m.run io signal with
    | .error err => ⟨[], some err⟩
    | .ok (.fail e) => ⟨[Progress.fail e (some ⟨some 1, some 1⟩)], none⟩
    | .ok (.ok v) => ⟨[Progress.ok v (some ⟨some 1, some 1⟩)], none⟩⟩

/-- Stream.create: wraps an arbitrary generator initializer. -/
def Stream.create {T E Io : Type} (init : Io → Option AbortSignal → StreamOut T E) :
    Stream T E Io :=
  ⟨init⟩

/-- Stream.const (stream.ts lines 396-400): one success emission tagged
total:1, current:1. -/
def Stream.const {T E Io : Type} (value : T) : Stream T E Io :=
  ⟨fun _ _ => ⟨[Progress.ok value (some ⟨some 1, some 1⟩)], none⟩⟩

/-- Stream.never (stream.ts lines 431-435): one failure emission, with no
progress argument passed, so the progress field is absent. -/
def Stream.never {T E Io : Type} (error : E) : Stream T E Io :=
  ⟨fun _ _ => ⟨[Progress.fail error none], none⟩⟩

/-- The per-emission transform of Stream.map: a success is rebuilt as
ok(fn(value), progress) with the progress carried through, a failure is
yielded unchanged. -/
def Progress.mapOk {T U E : Type} (fn : T → U) : Progress T E → Progress U E
  | .ok v p => .ok (fn v) p
  | .fail e p => .fail e p

/-- Stream.map (stream.ts lines 473-484): transforms each success emission,
passes failures through; the loop rethrows whatever the source generator
threw. -/
def Stream.map {T U E Io : Type} (s : Stream T E Io) (fn : T → U) : Stream U E Io :=
  Stream.create fun io signal =>
    let out := s.run io signal
    ⟨out.emitted.map (Progress.mapOk fn), out.thrown⟩

/-- The loop body of Stream.flatMap over the source emissions: a success
runs fn(value) and splices that sub-stream run in full (rethrowing its
terminal error, which aborts the loop), a failure is yielded and the loop
continues; at the end of the source the source's own thrown error
propagates. -/
def Stream.flatMapGo {T U E Io : Type} (fn : T → Stream U E Io) (io : Io)
    (signal : Option AbortSignal) :
    List (Progress T E) → Option JsError → StreamOut U E
  | [], th => ⟨[], th⟩
  | .ok v _ :: rest, th =>
    let sub := (fn v).run io signal
    match sub.thrown with
    | some err => ⟨sub.emitted, some err⟩
    | none =>
      let tail := Stream.flatMapGo fn io signal rest th
      ⟨sub.emitted ++ tail.emitted, tail.thrown⟩
  | .fail e p :: rest, th =>
    let tail := Stream.flatMapGo fn io signal rest th
    ⟨.fail e p :: tail.emitted, tail.thrown⟩

/-- Stream.flatMap (stream.ts lines 566-580): iterates the source run,
splicing fn(value) runs for successes and yielding failures as they are.
The TS error union E | F is instantiated at one Lean type. -/
def Stream.flatMap {T U E Io : Type} (s : Stream T E Io) (fn : T → Stream U E Io) :
    Stream U E Io :=
  Stream.create fun io signal =>
    let out := s.run io signal
    Stream.flatMapGo fn io signal out.emitted out.thrown

/-- The loop body of Stream.orElse over the source emissions: a success is
yielded unchanged (progress included), a failure runs fn(error) and splices
that recovery run in full, then the loop continues with the rest of the
source. -/
def Stream.orElseGo {T E F Io : Type} (fn : E → Stream T F Io) (io : Io)
    (signal : Option AbortSignal) :
    List (Progress T E) → Option JsError → StreamOut T F
  | [], th => ⟨[], th⟩
  | .ok v p :: rest, th =>
    let tail := Stream.orElseGo fn io signal rest th
    ⟨.ok v p :: tail.emitted, tail.thrown⟩
  | .fail e _ :: rest, th =>
    let sub := (fn e).run io signal
    match sub.thrown with
    | some err => ⟨sub.emitted, some err⟩
    | none =>
      let tail := Stream.orElseGo fn io signal rest th
      ⟨sub.emitted ++ tail.emitted, tail.thrown⟩

/-- Stream.orElse (stream.ts lines 670-684): iterates the source run,
yielding successes and splicing fn(error) runs for failures. -/
def Stream.orElse {T E F Io : Type} (s : Stream T E Io) (fn : E → Stream T F Io) :
    Stream T F Io :=
  Stream.create fun io signal =>
    let out := s.run io signal
    Stream.orElseGo fn io signal out.emitted out.thrown

/-- collectProgress (stream.ts lines 150-160): drains the run into a list;
if the generator throws, the collecting promise rejects with that error. -/
def collectProgress {T E Io : Type} (s : Stream T E Io) (io : Io)
    (signal : Option AbortSignal) : Except JsError (List (Progress T E)) :=
  let out := s.run io signal
  match out.thrown with
  | some err => .error err
  | none => .ok out.emitted

/-- Stream.toTask (stream.ts lines 727-739): collects all emissions,
throws an Error when there are none, otherwise resolves to the last
emission as an ok or fail Result. -/
def Stream.toTask {T E Io : Type} (s : Stream T E Io) : Task T E Io :=
  Task.create fun io signal =>
    match collectProgress s io signal with
    | .error err => .error err
    | .ok results =>
      match results.getLast? with
      | none => .error ⟨"Stream yielded no progress updates"⟩
      | some (.ok v _) => .ok (.ok v)
      | some (.fail e _) => .ok (.fail e)

/-- The delay assignment in the retry loop of http (part_005 lines 53-56):
ms is set to min(baseRetryMs * retryFactor ^ attempt, maxRetryMs), with
attempt incremented afterwards. -/
def httpNextDelay (baseRetryMs retryFactor maxRetryMs attempt : Nat) : Nat :=
  min (baseRetryMs * retryFactor ^ attempt) maxRetryMs

/-- The retry loop of http (part_005 lines 20-69) specialised to the run in
which every attempt fails and the signal is never aborted, driven by fuel.
State is the attempt counter and the current ms value (both start at 0).
Each iteration checks the loop guard ms <= maxRetryMs; when the guard fails
the loop exits and the canRetry:true failure after the loop is emitted
(result: some true); while fuel remains and the guard holds, the failed
attempt updates ms and attempt and the loop repeats.  none means the fuel
ran out with the loop still running. -/
def httpLoopAllFail (baseRetryMs retryFactor maxRetryMs : Nat) :
    Nat → Nat → Nat → Option Bool
  | 0, _, _ => none
  | fuel + 1, attempt, ms =>
    if ms ≤ maxRetryMs then
      httpLoopAllFail baseRetryMs retryFactor maxRetryMs fuel (attempt + 1)
        (httpNextDelay baseRetryMs retryFactor maxRetryMs attempt)
    else some true

/-- Fixture for claim C1: a source whose run emits a failure and then a
success. -/
def c1Source : Stream Nat String Unit :=
  Stream.create fun _ _ => ⟨[Progress.fail "e" none, Progress.ok 1 none], none⟩

/-- Fixture for claim C1: the sub-stream function given to flatMap. -/
def c1Sub (v : Nat) : Stream Nat String Unit :=
  Stream.const v

/-- Fixture for claim C1: a source emitting a success, a failure, then a
success. -/
def c1AmendedSource : Stream Nat String Unit :=
  Stream.create fun _ _ =>
    ⟨[Progress.ok 2 none, Progress.fail "boom" none, Progress.ok 3 none], none⟩

/-- Fixture for claim C1: a sub-stream function emitting its argument once
without progress metadata. -/
def c1AmendedSub (v : Nat) : Stream Nat String Unit :=
  Stream.create fun _ _ => ⟨[Progress.ok v none], none⟩

/-- Fixture for claim C2: a source whose run emits two failures. -/
def c2Source : Stream String String Unit :=
  Stream.create fun _ _ => ⟨[Progress.fail "e1" none, Progress.fail "e2" none], none⟩

/-- Fixture for claim C2: a recovery function emitting the received error
as a single success. -/
def c2Recover (e : String) : Stream String String Unit :=
  Stream.create fun _ _ => ⟨[Progress.ok e none], none⟩

/-- Fixture for claim C2: a source emitting a success, a failure, then a
success. -/
def c2AmendedSource : Stream Nat String Unit :=
  Stream.create fun _ _ =>
    ⟨[Progress.ok 7 none, Progress.fail "down" none, Progress.ok 8 none], none⟩

/-- Fixture for claim C2: a recovery function emitting one success. -/
def c2AmendedRecover (_ : String) : Stream Nat String Unit :=
  Stream.create fun _ _ => ⟨[Progress.ok 0 none], none⟩

/-- Fixture for claim C7: a stream whose run yields zero emissions. -/
def c7EmptyStream : Stream Nat String Unit :=
  Stream.create fun _ _ => ⟨[], none⟩

-- Helper lemmas about the per-emission transform of Stream.map.

lemma list_mapOk_id {T E : Type} (l : List (Progress T E)) :
    l.map (Progress.mapOk fun x => x) = l := by
  induction l with
  | nil => rfl
  | cons hd tl ih => cases hd <;> simp [Progress.mapOk, ih]

lemma list_mapOk_comp {T U V E : Type} (f : T → U) (g : U → V) (l : List (Progress T E)) :
    (l.map (Progress.mapOk f)).map (Progress.mapOk g)
      = l.map (Progress.mapOk fun x => g (f x)) := by
  induction l with
  | nil => rfl
  | cons hd tl ih => cases hd <;> simp [Progress.mapOk, ih]

/-- Claim C3: monad laws for Task.flatMap, where same outcome means that
running both Tasks with the same capability object and signal returns
equal results: left identity, right identity, and associativity. -/
theorem task_flatMap_monad_laws {T U V E Io : Type} (a : T) (f : T → Task U E Io)
    (g : U → Task V E Io) (m : Task T E Io) (io : Io) (signal : Option AbortSignal) :
    ((Task.of a).flatMap f).run io signal = (f a).run io signal ∧
    (m.flatMap Task.of).run io signal = m.run io signal ∧
    ((m.flatMap f).flatMap g).run io signal
      = (m.flatMap fun x => (f x).flatMap g).run io signal := by
  refine ⟨rfl, ?_, ?_⟩
  · simp only [Task.flatMap, Task.create, Task.of]
    cases m.run io signal with
    | error err => rfl
    | ok r => cases r <;> rfl
  · simp only [Task.flatMap, Task.create]
    cases m.run io signal with
    | error err => rfl
    | ok r => cases r <;> rfl

/-- Claim C4: functor laws for map on Task and Stream: identity and
composition, with same outcome meaning equal run results for the same
capability object and signal (for a Stream, the identical emission
sequence and terminal state). -/
theorem map_functor_laws {T U V E Io : Type} (f : T → U) (g : U → V)
    (m : Task T E Io) (s : Stream T E Io) (io : Io) (signal : Option AbortSignal) :
    ((m.map fun x => x).run io signal = m.run io signal) ∧
    (((m.map f).map g).run io signal = (m.map fun x => g (f x)).run io signal) ∧
    ((s.map fun x => x).run io signal = s.run io signal) ∧
    (((s.map f).map g).run io signal = (s.map fun x => g (f x)).run io signal) := by
  refine ⟨?_, ?_, ?_, ?_⟩
  · simp only [Task.map, Task.create]
    cases m.run io signal with
    | error err => rfl
    | ok r => cases r <;> rfl
  · simp only [Task.map, Task.create]
    cases m.run io signal with
    | error err => rfl
    | ok r => cases r <;> rfl
  · simp [Stream.map, Stream.create, list_mapOk_id]
  · simp [Stream.map, Stream.create, list_mapOk_comp]
    intro a ha
    cases a <;> rfl

/-- Claim C5: failure short-circuit for Task: when m resolves to a typed
failure, flatMap and map return that failure with the error value
untouched; the conclusion holds for every f and g, which is the pure-model
statement that the callbacks are never invoked on the failure path. -/
theorem task_failure_short_circuit {T U E Io : Type} (m : Task T E Io) (e : E)
    (io : Io) (signal : Option AbortSignal) (h : m.run io signal = .ok (.fail e))
    (f : T → Task U E Io) (g : T → U) :
    (m.flatMap f).run io signal = .ok (.fail e) ∧
    (m.map g).run io signal = .ok (.fail e) := by
  constructor
  · simp [Task.flatMap, Task.create, h]
  · simp [Task.map, Task.create, h]

/-- Witness for claim C5 at the concrete failing task Task.reject. -/
theorem task_failure_short_circuit_witness :
    ((Task.reject "boom" : Task Nat String Unit).flatMap fun n => Task.of n).run () none
        = .ok (.fail "boom") ∧
    ((Task.reject "boom" : Task Nat String Unit).map fun n => n + 1).run () none
        = .ok (.fail "boom") :=
  task_failure_short_circuit (Task.reject "boom") "boom" () none rfl
    (fun n => Task.of n) (fun n => n + 1)

/-- Claim C6: Task.of(v).toStream() emits exactly one success emission
carrying v with progress current:1, total:1, and the round trip through
toTask returns the same result as Task.of(v) itself. -/
theorem task_of_toStream_roundtrip {T E Io : Type} (v : T) (io : Io)
    (signal : Option AbortSignal) :
    ((Task.of v : Task T E Io).toStream).run io signal
        = ⟨[Progress.ok v (some ⟨some 1, some 1⟩)], none⟩ ∧
    ((Task.of v : Task T E Io).toStream.toTask).run io signal
        = (Task.of v : Task T E Io).run io signal :=
  ⟨rfl, rfl⟩

/-- Claim C7: toTask drains the stream, resolving to the last emission as
a Result; a run with zero emissions makes the task throw a JS Error (the
Except.error channel, distinct from the typed error E). -/
theorem stream_toTask_last_emission {T E Io : Type} (s : Stream T E Io) (io : Io)
    (signal : Option AbortSignal) (h : (s.run io signal).thrown = none) :
    s.toTask.run io signal =
      match (s.run io signal).emitted.getLast? with
      | none => Except.error ⟨"Stream yielded no progress updates"⟩
      | some (.ok v _) => .ok (.ok v)
      | some (.fail e _) => .ok (.fail e) := by
  simp [Stream.toTask, Task.create, collectProgress, h]

/-- Witness for claim C7: the empty stream makes toTask throw. -/
theorem stream_toTask_last_emission_witness :
    c7EmptyStream.toTask.run () none
      = Except.error ⟨"Stream yielded no progress updates"⟩ := by
  have h := stream_toTask_last_emission c7EmptyStream () none rfl
  simpa using h

/-- Claim C10: Stream.never(e) emits exactly one failure carrying e with
the progress field absent, while Stream.const(v) emits one success tagged
total:1, current:1. -/
theorem stream_never_vs_const {T E Io : Type} (e : E) (v : T) (io : Io)
    (signal : Option AbortSignal) :
    (Stream.never e : Stream T E Io).run io signal = ⟨[Progress.fail e none], none⟩ ∧
    (Stream.const v : Stream T E Io).run io signal
        = ⟨[Progress.ok v (some ⟨some 1, some 1⟩)], none⟩ :=
  ⟨rfl, rfl⟩

-- Helper: while the current delay is within the ceiling, the retry loop
-- keeps running for any amount of fuel, since the next delay is clamped by
-- min to the ceiling itself.

lemma httpLoopAllFail_none (baseRetryMs retryFactor maxRetryMs fuel attempt ms : Nat)
    (h : ms ≤ maxRetryMs) :
    httpLoopAllFail baseRetryMs retryFactor maxRetryMs fuel attempt ms = none := by
  induction fuel generalizing attempt ms with
  | zero => rfl
  | succ n ih =>
    simp only [httpLoopAllFail, if_pos h]
    exact ih (attempt + 1) _ (min_le_right _ _)

/-- Claim C9: in a run of http in which every attempt fails and the signal
is never aborted, the retry loop never exits: the guard ms <= maxRetryMs
always holds because ms is assigned min(baseRetryMs * retryFactor ^ attempt,
maxRetryMs), so the post-loop canRetry:true failure is unreachable and the
computation performs unboundedly many attempts. -/
theorem http_retry_loop_never_exits (baseRetryMs retryFactor maxRetryMs fuel : Nat) :
    httpLoopAllFail baseRetryMs retryFactor maxRetryMs fuel 0 0 = none :=
  httpLoopAllFail_none baseRetryMs retryFactor maxRetryMs fuel 0 0 (Nat.zero_le _)

/-- Counterexample for claim C8: the stated pipeline starting from
Task.of(5) computes ((5 * 2) + 5) / 5 = 3, so its run does not return ok
with value 5. -/
theorem task_scenario_A_counterexample :
    ((((Task.of 5 : Task Nat String Unit).map fun x => x * 2).flatMap fun x =>
        Task.of (x + 5)).map fun x => x / 5).run () none ≠ .ok (.ok 5) := by
  intro h
  exact absurd (Except.ok.inj h) (by decide)

/-- Claim C8 amended: running the composed task Task.of(5).map(x => x * 2)
.flatMap(x => Task.of(x + 5)).map(x => x / 5) with the empty capability
object yields ok with value 3. -/
theorem task_scenario_A :
    ((((Task.of 5 : Task Nat String Unit).map fun x => x * 2).flatMap fun x =>
        Task.of (x + 5)).map fun x => x / 5).run () none = .ok (.ok 3) := rfl

/-- Counterexample for claim C1: on a source emitting a failure and then a
success, flatMap emits the failure and keeps iterating the source, so the
sub-stream of the success after the first failure still contributes to the
output; the output is not the failure alone as the claim requires. -/
theorem stream_flatMap_stop_counterexample :
    (c1Source.flatMap c1Sub).run () none
        = ⟨[Progress.fail "e" none, Progress.ok 1 (some ⟨some 1, some 1⟩)], none⟩ ∧
    (c1Source.flatMap c1Sub).run () none ≠ ⟨[Progress.fail "e" none], none⟩ :=
  ⟨rfl, by decide⟩

-- Helper: the flatMap loop over a prefix of success emissions whose
-- sub-streams finish normally splices their runs in order and then
-- continues with the rest of the source emissions.

lemma flatMapGo_ok_front {T U E Io : Type} (fn : T → Stream U E Io) (io : Io)
    (signal : Option AbortSignal) (pre : List (T × Option ProgressState))
    (rest : List (Progress T E))
    (hf : ∀ x ∈ pre, ((fn x.1).run io signal).thrown = none) :
    Stream.flatMapGo fn io signal (pre.map (fun x => Progress.ok x.1 x.2) ++ rest) none
      = ⟨(pre.map fun x => ((fn x.1).run io signal).emitted).flatten
            ++ (Stream.flatMapGo fn io signal rest none).emitted,
         (Stream.flatMapGo fn io signal rest none).thrown⟩ := by
  induction pre with
  | nil => simp
  | cons hd tl ih =>
    have hhd : ((fn hd.1).run io signal).thrown = none := hf hd (by simp)
    have htl : ∀ x ∈ tl, ((fn x.1).run io signal).thrown = none := by
      intro x hx
      exact hf x (by simp [hx])
    simp [Stream.flatMapGo, hhd, ih htl, List.append_assoc]

/-- Claim C1 amended: flatMap emits each source failure exactly once at
its position and f is never invoked for it, but the source keeps being
iterated past its first failure: decomposing the source run into a success
prefix, its first failure, and a remainder, the output is the spliced
prefix, then that failure, and then the flatMap processing of the
remainder, whose emissions still contribute. -/
theorem stream_flatMap_failure_passthrough {T U E Io : Type} (s : Stream T E Io)
    (f : T → Stream U E Io) (io : Io) (signal : Option AbortSignal)
    (pre : List (T × Option ProgressState)) (e : E) (p : Option ProgressState)
    (post : List (Progress T E))
    (hs : s.run io signal
      = ⟨pre.map (fun x => Progress.ok x.1 x.2) ++ Progress.fail e p :: post, none⟩)
    (hf : ∀ x ∈ pre, ((f x.1).run io signal).thrown = none) :
    ((s.flatMap f).run io signal).emitted
      = (pre.map fun x => ((f x.1).run io signal).emitted).flatten
          ++ Progress.fail e p :: (Stream.flatMapGo f io signal post none).emitted := by
  simp only [Stream.flatMap, Stream.create, hs]
  rw [flatMapGo_ok_front f io signal pre (Progress.fail e p :: post) hf]
  simp [Stream.flatMapGo]

/-- Witness for amended claim C1 at a concrete source and sub-stream
function: the success after the failure still contributes. -/
theorem stream_flatMap_failure_passthrough_witness :
    ((c1AmendedSource.flatMap c1AmendedSub).run () none).emitted
      = [Progress.ok 2 none, Progress.fail "boom" none, Progress.ok 3 none] := by
  have h := stream_flatMap_failure_passthrough c1AmendedSource c1AmendedSub () none
    [(2, none)] "boom" none [Progress.ok 3 none] rfl (fun x _ => rfl)
  simpa [c1AmendedSub, Stream.flatMapGo] using h

/-- Counterexample for claim C2: on a source emitting two failures, orElse
splices a recovery run for each of them and keeps consuming the source, so
the recovery function is invoked twice and the output is not the first
recovery alone as the claim requires. -/
theorem stream_orElse_stop_counterexample :
    (c2Source.orElse c2Recover).run () none
        = ⟨[Progress.ok "e1" none, Progress.ok "e2" none], none⟩ ∧
    (c2Source.orElse c2Recover).run () none ≠ ⟨[Progress.ok "e1" none], none⟩ :=
  ⟨rfl, by decide⟩

-- Helper: the orElse loop passes a prefix of success emissions through
-- unchanged and then continues with the rest of the source emissions.

lemma orElseGo_ok_front {T E F Io : Type} (fn : E → Stream T F Io) (io : Io)
    (signal : Option AbortSignal) (pre : List (T × Option ProgressState))
    (rest : List (Progress T E)) :
    Stream.orElseGo fn io signal (pre.map (fun x => Progress.ok x.1 x.2) ++ rest) none
      = ⟨pre.map (fun x => Progress.ok x.1 x.2)
            ++ (Stream.orElseGo fn io signal rest none).emitted,
         (Stream.orElseGo fn io signal rest none).thrown⟩ := by
  induction pre with
  | nil => simp
  | cons hd tl ih => simp [Stream.orElseGo, ih]

/-- Claim C2 amended: orElse splices the recovery run f(error) into the
output at each failure emission and keeps consuming the original source
afterwards: decomposing the source run into a success prefix, its first
failure, and a remainder, the output is the prefix unchanged, then the
recovery emissions, and then the orElse processing of the remainder, whose
emissions still contribute (so f is invoked once per failure emission, not
at most once per run). -/
theorem stream_orElse_failure_recovery {T E F Io : Type} (s : Stream T E Io)
    (f : E → Stream T F Io) (io : Io) (signal : Option AbortSignal)
    (pre : List (T × Option ProgressState)) (e : E) (p : Option ProgressState)
    (post : List (Progress T E))
    (hs : s.run io signal
      = ⟨pre.map (fun x => Progress.ok x.1 x.2) ++ Progress.fail e p :: post, none⟩)
    (hrec : ((f e).run io signal).thrown = none) :
    ((s.orElse f).run io signal).emitted
      = pre.map (fun x => Progress.ok x.1 x.2)
          ++ ((f e).run io signal).emitted
          ++ (Stream.orElseGo f io signal post none).emitted := by
  simp only [Stream.orElse, Stream.create, hs]
  rw [orElseGo_ok_front]
  simp [Stream.orElseGo, hrec, List.append_assoc]

/-- Witness for amended claim C2 at a concrete source and recovery
function: the success after the failure still contributes. -/
theorem stream_orElse_failure_recovery_witness :
    ((c2AmendedSource.orElse c2AmendedRecover).run () none).emitted
      = [Progress.ok 7 none, Progress.ok 0 none, Progress.ok 8 none] := by
  have h := stream_orElse_failure_recovery c2AmendedSource c2AmendedRecover () none
    [(7, none)] "down" none [Progress.ok 8 none] rfl rfl
  simpa [c2AmendedRecover, Stream.orElseGo] using h

end Efficacy
